import Mathlib

/-!
Verification development for the DX11Tutorial2 instanced-rendering core
(lessons `8.Instancing` and `10.Compute`).

Shallow embedding conventions:
* 32-bit floats are modelled as exact rationals (`ℚ`); the float literals of
  the source (`0.0001f`, `3.5f`, `7.0f`, `0.00001f`, ...) are mapped to the
  rationals they denote.
* `DirectX::XMMATRIX` is a 4×4 rational matrix in the DirectXMath row-vector
  convention (a point transforms as the row vector `(x y z 1) * M`).
* `cosf`/`sinf` are kept as uninterpreted function parameters `cosf sinf :
  ℚ → ℚ`: the source delegates them to the math library, and no claim
  depends on their values.
* `rand()/RAND_MAX` (`randNormf` of `9.RenderTargets/framework.h`) is an
  uninterpreted stream `rng : ℕ → ℚ`, consumed left to right; the only fact
  used about it is `0 ≤ rng n ≤ 1`.
-/

namespace DX11

/-- 4×4 matrix over exact rationals, standing for `DirectX::XMMATRIX`. -/
abbrev Mat4 := Matrix (Fin 4) (Fin 4) ℚ

/-- The `Point3f` of `Math/Point.h`, with exact rational components. -/
structure Point3 where
  x : ℚ
  y : ℚ
  z : ℚ
  deriving DecidableEq, Repr

/-- The `Point4f` of `Math/Point.h`, with exact rational components. -/
structure Point4 where
  x : ℚ
  y : ℚ
  z : ℚ
  w : ℚ
  deriving DecidableEq, Repr

/-- Componentwise sum of two `Point3f` values (`operator+`). -/
def p3add (a b : Point3) : Point3 := ⟨a.x + b.x, a.y + b.y, a.z + b.z⟩

/-- Scalar multiple of a `Point3f` (`operator*(float)`). -/
def p3smul (a : Point3) (k : ℚ) : Point3 := ⟨a.x * k, a.y * k, a.z * k⟩

/-- Componentwise difference of two `Point3f` values (`operator-`). -/
def p3sub (a b : Point3) : Point3 := ⟨a.x - b.x, a.y - b.y, a.z - b.z⟩

/-- `DirectX::XMMatrixTranslation(x, y, z)`: identity with the translation in
row 3 (row-vector convention). -/
def xmMatrixTranslation (x y z : ℚ) : Mat4 :=
  !![1, 0, 0, 0;
     0, 1, 0, 0;
     0, 0, 1, 0;
     x, y, z, 1]

/-- `DirectX::XMMatrixRotationAxis(XMVectorSet(0,1,0,1), a)`: rotation about
the y axis, with `cosf`/`sinf` uninterpreted. Entry layout follows
DirectXMath's row-major `XMMatrixRotationY`. -/
def xmMatrixRotationAxisY (cosf sinf : ℚ → ℚ) (a : ℚ) : Mat4 :=
  !![cosf a, 0, -(sinf a), 0;
     0,      1, 0,         0;
     sinf a, 0, cosf a,    0;
     0,      0, 0,         1]

/-- `DirectX::XMMatrixMultiply(a, b)` (row-vector convention: `v * a * b`). -/
def xmMatrixMultiply (a b : Mat4) : Mat4 := a * b

/-- `DirectX::XMMatrixTranspose`. -/
def xmMatrixTranspose (a : Mat4) : Mat4 := a.transpose

/-- `DirectX::XMMatrixInverse(nullptr, a)`: the true inverse for invertible
`a`, written with the adjugate so it is executable over `ℚ`. -/
def xmMatrixInverse (a : Mat4) : Mat4 := a.det⁻¹ • a.adjugate

/-- The per-instance `GeomBuffer` record of `10.Compute/Renderer.h`
(lines 174–180): model matrix, inverse-transpose normal matrix,
`shineSpeedTexIdNM` (x shininess, y rotation speed, z texture id, w
normal-map bit pattern) and `posAngle` (xyz position, w current angle). -/
structure GeomBuffer where
  m : Mat4
  normalM : Mat4
  shineSpeedTexIdNM : Point4
  posAngle : Point4
  deriving DecidableEq

/-- The zero-initialized `GeomBuffer` produced by `std::vector<GeomBuffer>
m_geomBuffers(MaxInst)` (value-initialization zeroes every member). -/
def gbDefault : GeomBuffer :=
  { m := 0, normalM := 0
    shineSpeedTexIdNM := ⟨0, 0, 0, 0⟩
    posAngle := ⟨0, 0, 0, 0⟩ }

/-- `Renderer::MaxInst` (`10.Compute/Renderer.h` line 16). -/
def MaxInst : ℕ := 100

/-- `ModelRotationSpeed = (float)M_PI / 2.0f` (`8.Instancing/Renderer.cpp`
line 46); `piQ` stands for the float approximation `(float)M_PI`. -/
def ModelRotationSpeed (piQ : ℚ) : ℚ := piQ / 2

/-- The model matrix recomputed by `Renderer::UpdateCubes` and `InitScene`:
`XMMatrixMultiply(XMMatrixRotationAxis(yAxis, -angle),
XMMatrixTranslation(pos.x, pos.y, pos.z))` applied to `posAngle`. -/
def modelMatrixOf (cosf sinf : ℚ → ℚ) (posAngle : Point4) : Mat4 :=
  xmMatrixMultiply (xmMatrixRotationAxisY cosf sinf (-posAngle.w))
    (xmMatrixTranslation posAngle.x posAngle.y posAngle.z)

/-- Per-instance body of `Renderer::UpdateCubes` (`8.Instancing/Renderer.cpp`
lines 1575–1590): when `fabs(shineSpeedTexIdNM.y) > 0.0001`, integrate the
angle by `deltaSec * speed`, rebuild the model matrix as rotation ∘
translation and the normal matrix as its inverse transpose; otherwise leave
the record untouched. -/
def updateCube (cosf sinf : ℚ → ℚ) (deltaSec : ℚ) (g : GeomBuffer) : GeomBuffer :=
  if 1/10000 < |g.shineSpeedTexIdNM.y| then
    let pa : Point4 :=
      ⟨g.posAngle.x, g.posAngle.y, g.posAngle.z,
        g.posAngle.w + deltaSec * g.shineSpeedTexIdNM.y⟩
    let m := modelMatrixOf cosf sinf pa
    { g with posAngle := pa
             m := m
             normalM := xmMatrixTranspose (xmMatrixInverse m) }
  else g

/-- `Renderer::UpdateCubes(deltaSec)` (`8.Instancing/Renderer.cpp` lines
1569–1595): when `m_rotateModel` holds, update the first `instCount` records
and re-upload the whole instance buffer (`UpdateSubresource` on
`m_pGeomBufferInst`, modelled by the returned `Bool` upload flag); when the
rotation toggle is off, nothing happens at all. -/
def updateCubes (cosf sinf : ℚ → ℚ) (rotateModel : Bool) (deltaSec : ℚ)
    (instCount : ℕ) (bufs : List GeomBuffer) : List GeomBuffer × Bool :=
  if rotateModel then
    (bufs.mapIdx fun i g => if i < instCount then updateCube cosf sinf deltaSec g else g,
     true)
  else (bufs, false)

/-- `Renderer::InitGeom(GeomBuffer&)` (`8.Instancing/Renderer.cpp` lines
1597–1608): five `randNormf()` draws `r1..r5` (consumed left to right),
position `r·7 − 3.5` per axis, shininess 64 when `r4 > 0.5` else 0, rotation
speed `r5 · 2π`, texture id 0, the normal-map bit pattern `nmBits` (the float
whose bits are the int 1, kept abstract), and angle 0. The matrices `m` and
`normalM` are NOT touched. -/
def initGeom (piQ nmBits : ℚ) (r1 r2 r3 r4 r5 : ℚ) (g : GeomBuffer) : GeomBuffer :=
  { g with
    shineSpeedTexIdNM :=
      ⟨if 1/2 < r4 then 64 else 0, r5 * 2 * piQ, 0, nmBits⟩
    posAngle := ⟨r1 * 7 - 7/2, r2 * 7 - 7/2, r3 * 7 - 7/2, 0⟩ }

/-- `initGeom` fed from the global pseudo-random stream `rng` starting at
index `base` (each `InitGeom` call consumes five consecutive draws). -/
def initGeomAt (piQ nmBits : ℚ) (rng : ℕ → ℚ) (base : ℕ) (g : GeomBuffer) : GeomBuffer :=
  initGeom piQ nmBits (rng base) (rng (base + 1)) (rng (base + 2))
    (rng (base + 3)) (rng (base + 4)) g

/-- The instance store: the `m_geomBuffers` vector (fixed physical length
`MaxInst`) and the logical active count `m_instCount`. -/
structure InstState where
  geomBuffers : List GeomBuffer
  instCount : ℕ
  deriving DecidableEq

/-- The "+" branch of the Instances UI in `Renderer::Render`
(`8.Instancing/Renderer.cpp` lines 462–470): when `m_instCount < MaxInst`,
look at the record just past the active range; reinitialize it via
`InitGeom` only when its stored position is exactly `(0,0,0)`, then increment
the count. At capacity the click is silently ignored. -/
def addInstance (piQ nmBits : ℚ) (rng : ℕ → ℚ) (s : InstState) : InstState :=
  if s.instCount < MaxInst then
    let g := s.geomBuffers.getD s.instCount gbDefault
    let bufs :=
      if g.posAngle.x = 0 ∧ g.posAngle.y = 0 ∧ g.posAngle.z = 0 then
        s.geomBuffers.set s.instCount (initGeomAt piQ nmBits rng 0 g)
      else s.geomBuffers
    { geomBuffers := bufs, instCount := s.instCount + 1 }
  else s

/-- The "−" branch of the Instances UI in `Renderer::Render`
(`8.Instancing/Renderer.cpp` lines 471–474): decrement the active count when
positive; the record beyond the new count is left untouched. At zero the
click is silently ignored. -/
def removeInstance (s : InstState) : InstState :=
  if 0 < s.instCount then
    { s with instCount := s.instCount - 1 }
  else s

/-- The instance part of `Renderer::InitScene` (`8.Instancing/Renderer.cpp`
lines 798–826): instance 0 deterministic at `(0.00001, 0, 0)` with rotation
speed `ModelRotationSpeed = π/2`; instance 1 deterministic at `(2, 0, 0)`
with speed 0, model matrix rotation ∘ translation at angle 0 and its inverse
transpose as normal matrix; instances 2..9 pseudo-random via `InitGeom`;
active count 10. -/
def initScene (cosf sinf : ℚ → ℚ) (piQ nmBits : ℚ) (rng : ℕ → ℚ) : InstState :=
  let bufs0 := List.replicate MaxInst gbDefault
  let g0 : GeomBuffer :=
    { gbDefault with
      shineSpeedTexIdNM := ⟨0, ModelRotationSpeed piQ, 0, nmBits⟩
      posAngle := ⟨1/100000, 0, 0, 0⟩ }
  let pa1 : Point4 := ⟨2, 0, 0, 0⟩
  let m1 := modelMatrixOf cosf sinf pa1
  let g1 : GeomBuffer :=
    { gbDefault with
      shineSpeedTexIdNM := ⟨64, 0, 0, nmBits⟩
      posAngle := pa1
      m := m1
      normalM := xmMatrixTranspose (xmMatrixInverse m1) }
  let bufs1 := (bufs0.set 0 g0).set 1 g1
  let bufs :=
    (List.range 8).foldl
      (fun bs i =>
        bs.set (2 + i) (initGeomAt piQ nmBits rng (5 * i) (bs.getD (2 + i) gbDefault)))
      bufs1
  { geomBuffers := bufs, instCount := 10 }

/-- The orbit camera of `Renderer::Camera` (`poi`, distance `r`, angles
`phi`, `theta`). -/
structure Camera where
  poi : Point3
  r : ℚ
  phi : ℚ
  theta : ℚ
  deriving DecidableEq

/-- The `Renderer` state touched by `Renderer::Update`
(`8.Instancing/Renderer.cpp` lines 279–351): the previous-timestamp sentinel
`m_prevUSec` (microseconds, 0 meaning "never updated"), the camera, the pan
deltas, the rotation toggle and the instance store. -/
structure UpdState where
  prevUSec : ℕ
  camera : Camera
  forwardDelta : ℚ
  rightDelta : ℚ
  rotateModel : Bool
  instCount : ℕ
  geomBuffers : List GeomBuffer

/-- The elapsed seconds computed by `Renderer::Update` (lines 281–287): the
sentinel `m_prevUSec == 0` is first replaced by the current timestamp, so the
first call sees `deltaSec = 0`. -/
def updateDeltaSec (usec : ℕ) (s : UpdState) : ℚ :=
  let prev := if s.prevUSec = 0 then usec else s.prevUSec
  ((usec : ℚ) - (prev : ℚ)) / 1000000

/-- The state-mutating part of `Renderer::Update` (lines 279–311): compute
`deltaSec`, move the camera point of interest by
`(forward·forwardDelta + right·rightDelta)·deltaSec`, run `UpdateCubes`, and
store the new timestamp. `Camera::GetDirections` divides by a square root,
so it stays an uninterpreted parameter `getDir`; the remaining statements of
`Update` only upload derived data to GPU buffers. -/
def update (cosf sinf : ℚ → ℚ) (getDir : Camera → Point3 × Point3)
    (usec : ℕ) (s : UpdState) : UpdState :=
  let deltaSec := updateDeltaSec usec s
  let dirs := getDir s.camera
  let d := p3smul (p3add (p3smul dirs.1 s.forwardDelta) (p3smul dirs.2 s.rightDelta))
    deltaSec
  let poi := p3add s.camera.poi d
  let bufs := (updateCubes cosf sinf s.rotateModel deltaSec s.instCount s.geomBuffers).1
  { s with
    camera := { s.camera with poi := poi }
    geomBuffers := bufs
    prevUSec := usec }

/-- One observable step of `Renderer::Resize` (`8.Instancing/Renderer.cpp`
lines 487–522), in program order. -/
inductive ResizeStep where
  | releaseBackBufferRTV
  | releaseDepthBuffer
  | releaseDepthBufferDSV
  | resizeSwapChainBuffers
  | setupBackBuffer
  | updateSphereGeomBuffer
  deriving DecidableEq, Repr

/-- The window size held by the renderer (`m_width`, `m_height`). -/
structure SizeState where
  width : ℕ
  height : ℕ
  deriving DecidableEq

/-- `Renderer::Resize(width, height)` (`8.Instancing/Renderer.cpp` lines
487–522): when the size is unchanged, return `true` immediately with no
side effects; otherwise release the backbuffer RTV and the depth resources,
call `IDXGISwapChain::ResizeBuffers` (success modelled by `resizeOk`), and on
success store the new size, rebuild the backbuffer (`SetupBackBuffer`,
success `setupOk`) and refresh the skybox sphere geometry. Returns
`(new state, returned bool, ordered effect log)`. -/
def resize (resizeOk setupOk : Bool) (w h : ℕ) (s : SizeState) :
    SizeState × Bool × List ResizeStep :=
  if w ≠ s.width ∨ h ≠ s.height then
    let releases : List ResizeStep :=
      [.releaseBackBufferRTV, .releaseDepthBuffer, .releaseDepthBufferDSV,
       .resizeSwapChainBuffers]
    if resizeOk then
      ({ width := w, height := h }, setupOk,
        releases ++ [.setupBackBuffer, .updateSphereGeomBuffer])
    else (s, false, releases)
  else (s, true, [])

/-! ### Bounding boxes

`float` values that may be special are modelled by `FVal`: a finite rational
or one of the two IEEE infinities. The sentinel constants of
`std::numeric_limits<float>` are finite values, distinct from the
infinities. -/

/-- A 32-bit float value: finite (as the exact rational it denotes) or one of
the two infinities. -/
inductive FVal where
  | ninf
  | fin (q : ℚ)
  | pinf
  deriving DecidableEq, Repr

/-- The `<=` comparison on `FVal` (IEEE order restricted to non-NaN). -/
def fleb : FVal → FVal → Bool
  | .ninf, _ => true
  | .fin _, .ninf => false
  | .fin a, .fin b => a ≤ b
  | .fin _, .pinf => true
  | .pinf, .pinf => true
  | .pinf, _ => false

/-- Componentwise float `min`. -/
def fminv (a b : FVal) : FVal := if fleb a b then a else b

/-- Componentwise float `max`. -/
def fmaxv (a b : FVal) : FVal := if fleb a b then b else a

/-- `FLT_MAX = (2 − 2⁻²³)·2¹²⁷`, the largest finite float. -/
def fltMaxQ : ℚ := 2 ^ 128 - 2 ^ 104

/-- `std::numeric_limits<float>::max()`: the largest FINITE float (not the
infinity). -/
def numericLimitsFloatMax : FVal := .fin fltMaxQ

/-- `std::numeric_limits<float>::lowest()`: the negative of `FLT_MAX`. -/
def numericLimitsFloatLowest : FVal := .fin (-fltMaxQ)

/-- A triple of float values (a `Point3f` that may hold sentinels). -/
structure Point3F where
  x : FVal
  y : FVal
  z : FVal
  deriving DecidableEq, Repr

/-- The `AABB` struct of `10.Compute/Renderer.h` (lines 154–172) with its
member initializers kept as values. -/
structure AABBF where
  vmin : Point3F
  vmax : Point3F
  deriving DecidableEq, Repr

/-- The default-constructed `AABB`: every `vmin` component is
`std::numeric_limits<float>::max()` and every `vmax` component is
`std::numeric_limits<float>::lowest()` (lines 156–161). -/
def aabbDefault : AABBF :=
  { vmin := ⟨numericLimitsFloatMax, numericLimitsFloatMax, numericLimitsFloatMax⟩
    vmax := ⟨numericLimitsFloatLowest, numericLimitsFloatLowest, numericLimitsFloatLowest⟩ }

/-- Modelled from the spec: the population of an `AABB` from geometry points
(the populating code lives in the `10.Compute` translation unit, absent from
`src/`; spec §3 says the box is "derived once at instance creation from the
known cube geometry"). One point extends the box by componentwise
min/max. -/
def addPointF (bb : AABBF) (p : Point3) : AABBF :=
  { vmin := ⟨fminv bb.vmin.x (.fin p.x), fminv bb.vmin.y (.fin p.y),
             fminv bb.vmin.z (.fin p.z)⟩
    vmax := ⟨fmaxv bb.vmax.x (.fin p.x), fmaxv bb.vmax.y (.fin p.y),
             fmaxv bb.vmax.z (.fin p.z)⟩ }

/-- Modelled from the spec: a box populated from a nonempty list of geometry
points, starting from the default (empty) box. -/
def aabbOfPoints (p : Point3) (ps : List Point3) : AABBF :=
  (p :: ps).foldl addPointF aabbDefault

/-! ### Frustum culling

The finite boxes actually tested carry plain rational corners. -/

/-- A populated axis-aligned box with finite corners (the state of
`m_geomBBs` entries at cull time). -/
structure AABB where
  vmin : Point3
  vmax : Point3
  deriving DecidableEq, Repr

/-- `AABB::GetVert(idx)` (`10.Compute/Renderer.h` lines 163–171): corner
`idx ∈ 0..7`, bit 0 selecting x, bit 1 selecting y, bit 2 selecting z between
`vmin` and `vmax`. -/
def getVert (bb : AABB) (idx : ℕ) : Point3 :=
  ⟨if idx &&& 1 = 0 then bb.vmin.x else bb.vmax.x,
   if idx &&& 2 = 0 then bb.vmin.y else bb.vmax.y,
   if idx &&& 4 = 0 then bb.vmin.z else bb.vmax.z⟩

/-- Modelled from the spec: transform of a corner to world space by the
instance model matrix (spec §4.3 "transform all 8 box corners to world space
using the instance's model matrix"); row-vector convention with `w = 1`,
affine (no perspective divide), as the model matrices are rotation ∘
translation. -/
def transformPoint (m : Mat4) (p : Point3) : Point3 :=
  ⟨p.x * m 0 0 + p.y * m 1 0 + p.z * m 2 0 + m 3 0,
   p.x * m 0 1 + p.y * m 1 1 + p.z * m 2 1 + m 3 1,
   p.x * m 0 2 + p.y * m 1 2 + p.z * m 2 2 + m 3 2⟩

/-- Signed value of a plane `(normal, d)` at a point: `n·p + d`; positive on
the inside half-space (spec §4.2). -/
def planeValue (pl : Point4) (p : Point3) : ℚ :=
  pl.x * p.x + pl.y * p.y + pl.z * p.z + pl.w

/-- Modelled from the spec: the per-box conservative frustum test of
`Renderer::CullBoxes` (implementation absent from `src/`; spec §4.3): the box
is culled exactly when for some plane all 8 transformed corners lie strictly
on its negative side. -/
def boxCulled (planes : List Point4) (m : Mat4) (bb : AABB) : Bool :=
  planes.any fun pl =>
    (List.range 8).all fun i =>
      decide (planeValue pl (transformPoint m (getVert bb i)) < 0)

/-- The local-space center of a box (midpoint of its corners). -/
def boxCenter (bb : AABB) : Point3 := p3smul (p3add bb.vmin bb.vmax) (1/2)

/-- Modelled from the spec: the CPU culler (spec §4.4): walk the first
`instCount` instances in order and compact the survivors of the conservative
box test into the visible buffer; `m_visibleInstances` is its length. -/
def cullBoxesCPU (planes : List Point4) (instCount : ℕ)
    (insts : List (GeomBuffer × AABB)) : List (GeomBuffer × AABB) :=
  (insts.take instCount).filter fun gb => ! boxCulled planes gb.1.m gb.2

/-- Modelled from the spec: the GPU compute culler (spec §4.5): one
invocation per instance, each testing the same conservative predicate and
atomically appending survivors, so the compacted output is the same filter
applied to the instances in SOME scheduler-chosen order `order` (any
permutation of the active prefix). -/
def cullBoxesGPU (planes : List Point4)
    (order : List (GeomBuffer × AABB)) : List (GeomBuffer × AABB) :=
  order.filter fun gb => ! boxCulled planes gb.1.m gb.2

/-! ### Frame query ring -/

/-- The query ring size: `ID3D11Query* m_queries[10]`
(`10.Compute/Renderer.h` line 291), nulled slot by slot in the constructor
(lines 107–110). -/
def numQueries : ℕ := 10

/-- The query slots as initialized by the constructor loop. -/
def queriesInit : List (Option ℕ) := List.replicate numQueries none

/-- The ring slot used for the query of frame `f` (spec §4.6: "issue a
completion query tagged with the current frame id into slot
(frame id mod N)"). -/
def slotOfFrame (f : ℕ) : ℕ := f % numQueries

/-- The renderer state read and written by the query-ring poll: the frame
counters and statistic (`m_curFrame`, `m_lastCompletedFrame`,
`m_gpuVisibleInstances`) plus the GPU-resident instance-count field of the
indirect-args buffer, which the poll must never touch. -/
structure QState where
  curFrame : ℕ
  lastCompletedFrame : ℕ
  gpuVisibleInstances : ℕ
  indirectArgsInstanceCount : ℕ
  deriving DecidableEq, Repr

/-- Modelled from the spec: the poll loop of `Renderer::ReadQueries`
(implementation absent from `src/`; spec §4.6): walk the pending frames
oldest first; each completed query (`done f`) publishes its visible count
and advances `lastCompletedFrame`; the first not-yet-ready query stops the
walk for this frame — no waiting. -/
def pollFrames (done : ℕ → Bool) (counts : ℕ → ℕ) :
    List ℕ → QState → QState
  | [], s => s
  | f :: fs, s =>
    if done f then
      pollFrames done counts fs
        { s with lastCompletedFrame := f, gpuVisibleInstances := counts f }
    else s

/-- The frames whose queries are still pending: `lastCompletedFrame + 1` up
to `curFrame`, oldest first. -/
def pendingFrames (s : QState) : List ℕ :=
  List.range' (s.lastCompletedFrame + 1) (s.curFrame - s.lastCompletedFrame)

/-- Modelled from the spec: `Renderer::ReadQueries` — non-blocking poll of
the pending queries, oldest first. -/
def readQueries (done : ℕ → Bool) (counts : ℕ → ℕ) (s : QState) : QState :=
  pollFrames done counts (pendingFrames s) s

/-! ## Theorems -/

/-- C3: for every active count `k ≤ MaxInst = 100`, adding at capacity and
removing at zero are silent no-ops, and both operations keep the active
count within `[0, MaxInst]`. -/
theorem instance_count_clamped (piQ nmBits : ℚ) (rng : ℕ → ℚ) (s : InstState)
    (hk : s.instCount ≤ MaxInst) :
    (s.instCount = MaxInst →
      (addInstance piQ nmBits rng s).instCount = MaxInst) ∧
    (s.instCount = 0 → (removeInstance s).instCount = 0) ∧
    (addInstance piQ nmBits rng s).instCount ≤ MaxInst ∧
    (removeInstance s).instCount ≤ MaxInst := by
  simp only [MaxInst] at hk ⊢
  unfold addInstance removeInstance MaxInst
  refine ⟨fun hfull => ?_, fun hzero => ?_, ?_, ?_⟩
  · rw [if_neg (by omega)]
    exact hfull
  · rw [if_neg (by omega)]
    exact hzero
  · split
    · show s.instCount + 1 ≤ 100
      omega
    · exact hk
  · split
    · show s.instCount - 1 ≤ 100
      omega
    · exact hk

/-- Witness for C3 at the concrete full store (count 100). -/
theorem instance_count_clamped_witness :
    (InstState.mk [] 100).instCount ≤ MaxInst ∧
    (((InstState.mk [] 100).instCount = MaxInst →
        (addInstance 3 0 (fun _ => 1/2) (InstState.mk [] 100)).instCount = MaxInst) ∧
      ((InstState.mk [] 100).instCount = 0 →
        (removeInstance (InstState.mk [] 100)).instCount = 0) ∧
      (addInstance 3 0 (fun _ => 1/2) (InstState.mk [] 100)).instCount ≤ MaxInst ∧
      (removeInstance (InstState.mk [] 100)).instCount ≤ MaxInst) :=
  ⟨by decide, instance_count_clamped 3 0 (fun _ => 1/2) (InstState.mk [] 100) (by decide)⟩

/-- C9: `Resize` with the current size is a pure no-op returning `true`
(no release, no rebuild); a genuinely changed size releases the backbuffer
RTV and the depth buffer and its view, resizes the swapchain buffers and, on
success, stores the new size and rebuilds the size-dependent resources. -/
theorem resize_noop_iff_same_size (resizeOk setupOk : Bool) (w h : ℕ)
    (s : SizeState) :
    (w = s.width → h = s.height →
      resize resizeOk setupOk w h s = (s, true, [])) ∧
    (w ≠ s.width ∨ h ≠ s.height →
      resize resizeOk setupOk w h s =
        if resizeOk then
          (⟨w, h⟩, setupOk,
            [.releaseBackBufferRTV, .releaseDepthBuffer, .releaseDepthBufferDSV,
             .resizeSwapChainBuffers, .setupBackBuffer, .updateSphereGeomBuffer])
        else
          (s, false,
            [.releaseBackBufferRTV, .releaseDepthBuffer, .releaseDepthBufferDSV,
             .resizeSwapChainBuffers])) := by
  constructor
  · intro hw hh
    simp [resize, hw, hh]
  · intro hne
    rcases hne with hne | hne <;> cases resizeOk <;> simp [resize, hne]

/-- Witness for C9: a 16×16 renderer resized to 16×16 does nothing and
returns `true`. -/
theorem resize_noop_iff_same_size_witness :
    resize true true 16 16 (SizeState.mk 16 16) = (SizeState.mk 16 16, true, []) :=
  (resize_noop_iff_same_size true true 16 16 (SizeState.mk 16 16)).1 rfl rfl

/-- The rotation angle survives a zero-time `UpdateCubes` step untouched. -/
theorem updateCube_zero_dt_angle (cosf sinf : ℚ → ℚ) (g : GeomBuffer) :
    (updateCube cosf sinf 0 g).posAngle.w = g.posAngle.w := by
  unfold updateCube
  split <;> simp

/-- C10: on the first `Update` after construction (`m_prevUSec = 0`) the
elapsed time is computed as zero, so the camera point of interest and every
instance's rotation angle are unchanged by the call. -/
theorem first_update_no_motion (cosf sinf : ℚ → ℚ)
    (getDir : Camera → Point3 × Point3) (usec : ℕ) (s : UpdState)
    (h0 : s.prevUSec = 0) :
    updateDeltaSec usec s = 0 ∧
    (update cosf sinf getDir usec s).camera.poi = s.camera.poi ∧
    ∀ i, ((update cosf sinf getDir usec s).geomBuffers.getD i gbDefault).posAngle.w
      = (s.geomBuffers.getD i gbDefault).posAngle.w := by
  have hds : updateDeltaSec usec s = 0 := by
    simp [updateDeltaSec, h0]
  refine ⟨hds, ?_, ?_⟩
  · simp [update, hds, p3add, p3smul]
  · intro i
    simp only [update, hds, updateCubes]
    split
    · simp only [List.getD, List.getElem?_mapIdx]
      cases hgi : s.geomBuffers[i]? with
      | none => simp [hgi]
      | some g =>
        by_cases hlt : i < s.instCount
        · simp [hgi, hlt, updateCube_zero_dt_angle]
        · simp [hgi, hlt]
    · rfl

/-- A one-instance renderer state fresh out of construction
(`m_prevUSec = 0`). -/
def updExample : UpdState :=
  { prevUSec := 0
    camera := { poi := ⟨1, 2, 3⟩, r := 5, phi := 0, theta := 0 }
    forwardDelta := 1
    rightDelta := 1
    rotateModel := true
    instCount := 1
    geomBuffers := [gbDefault] }

/-- Witness for C10 on `updExample` at timestamp 42. -/
theorem first_update_no_motion_witness :
    updExample.prevUSec = 0 ∧
    updateDeltaSec 42 updExample = 0 ∧
    (update id id (fun c => (c.poi, c.poi)) 42 updExample).camera.poi
      = updExample.camera.poi ∧
    ((update id id (fun c => (c.poi, c.poi)) 42 updExample).geomBuffers.getD 0
        gbDefault).posAngle.w
      = (updExample.geomBuffers.getD 0 gbDefault).posAngle.w :=
  ⟨rfl,
   (first_update_no_motion id id (fun c => (c.poi, c.poi)) 42 updExample rfl).1,
   (first_update_no_motion id id (fun c => (c.poi, c.poi)) 42 updExample rfl).2.1,
   (first_update_no_motion id id (fun c => (c.poi, c.poi)) 42 updExample rfl).2.2 0⟩

/-- C6: `RemoveInstance` only decrements the count, leaving every record
(including the one beyond the new count) intact; the following
`AddInstance` reuses that stale record unchanged whenever its stored
position is not exactly `(0,0,0)`, and reinitializes the slot with fresh
pseudo-random data exactly when the stored position is `(0,0,0)`. -/
theorem remove_add_stale_reuse (piQ nmBits : ℚ) (rng : ℕ → ℚ) (s : InstState)
    (hpos : 0 < s.instCount) (hle : s.instCount ≤ MaxInst) :
    (removeInstance s).geomBuffers = s.geomBuffers ∧
    (removeInstance s).instCount = s.instCount - 1 ∧
    (¬((s.geomBuffers.getD (s.instCount - 1) gbDefault).posAngle.x = 0 ∧
        (s.geomBuffers.getD (s.instCount - 1) gbDefault).posAngle.y = 0 ∧
        (s.geomBuffers.getD (s.instCount - 1) gbDefault).posAngle.z = 0) →
      addInstance piQ nmBits rng (removeInstance s) =
        { geomBuffers := s.geomBuffers, instCount := s.instCount }) ∧
    (((s.geomBuffers.getD (s.instCount - 1) gbDefault).posAngle.x = 0 ∧
        (s.geomBuffers.getD (s.instCount - 1) gbDefault).posAngle.y = 0 ∧
        (s.geomBuffers.getD (s.instCount - 1) gbDefault).posAngle.z = 0) →
      addInstance piQ nmBits rng (removeInstance s) =
        { geomBuffers := s.geomBuffers.set (s.instCount - 1)
            (initGeomAt piQ nmBits rng 0
              (s.geomBuffers.getD (s.instCount - 1) gbDefault))
          instCount := s.instCount }) := by
  have hrem : removeInstance s =
      { geomBuffers := s.geomBuffers, instCount := s.instCount - 1 } := by
    unfold removeInstance
    rw [if_pos hpos]
  have hlt : s.instCount - 1 < MaxInst := by
    simp only [MaxInst] at hle ⊢
    omega
  refine ⟨by rw [hrem], by rw [hrem], fun hstale => ?_, fun hzero => ?_⟩
  · rw [hrem]
    unfold addInstance
    rw [if_pos hlt]
    dsimp only
    rw [if_neg hstale]
    have : s.instCount - 1 + 1 = s.instCount := by omega
    rw [this]
  · rw [hrem]
    unfold addInstance
    rw [if_pos hlt]
    dsimp only
    rw [if_pos hzero]
    have : s.instCount - 1 + 1 = s.instCount := by omega
    rw [this]

/-- A two-instance store whose slot 1 holds a stale nonzero position. -/
def staleExample : InstState :=
  { geomBuffers :=
      [gbDefault,
       { gbDefault with posAngle := ⟨2, 0, 0, 0⟩ }]
    instCount := 2 }

/-- Witness for C6: remove then add on `staleExample` reuses the stale slot 1
record without reinitialization. -/
theorem remove_add_stale_reuse_witness :
    0 < staleExample.instCount ∧ staleExample.instCount ≤ MaxInst ∧
    (removeInstance staleExample).geomBuffers = staleExample.geomBuffers ∧
    (removeInstance staleExample).instCount = staleExample.instCount - 1 ∧
    (¬(((staleExample.geomBuffers.getD (staleExample.instCount - 1)
          gbDefault).posAngle.x = 0) ∧
       ((staleExample.geomBuffers.getD (staleExample.instCount - 1)
          gbDefault).posAngle.y = 0) ∧
       ((staleExample.geomBuffers.getD (staleExample.instCount - 1)
          gbDefault).posAngle.z = 0)) →
      addInstance 3 0 (fun _ => 1/2) (removeInstance staleExample) =
        { geomBuffers := staleExample.geomBuffers
          instCount := staleExample.instCount }) :=
  ⟨by decide, by decide,
   (remove_add_stale_reuse 3 0 (fun _ => 1/2) staleExample (by decide) (by decide)).1,
   (remove_add_stale_reuse 3 0 (fun _ => 1/2) staleExample (by decide) (by decide)).2.1,
   (remove_add_stale_reuse 3 0 (fun _ => 1/2) staleExample (by decide) (by decide)).2.2.1⟩

/-- C8: after scene initialization the active count is 10; instance 0 sits
deterministically at `(0.00001, 0, 0)` with rotation speed
`ModelRotationSpeed = π/2`; instance 1 sits at `(2, 0, 0)` with speed 0;
instances 2..9 are pseudo-random with every position component inside
`[−3.5, 3.5]` (given that each `rand()/RAND_MAX` draw lies in `[0, 1]`). -/
theorem initScene_spec (cosf sinf : ℚ → ℚ) (piQ nmBits : ℚ) (rng : ℕ → ℚ)
    (hrng : ∀ n, 0 ≤ rng n ∧ rng n ≤ 1) :
    (initScene cosf sinf piQ nmBits rng).instCount = 10 ∧
    ((initScene cosf sinf piQ nmBits rng).geomBuffers.getD 0 gbDefault).posAngle
      = ⟨1/100000, 0, 0, 0⟩ ∧
    ((initScene cosf sinf piQ nmBits rng).geomBuffers.getD 0
        gbDefault).shineSpeedTexIdNM.y = piQ / 2 ∧
    ((initScene cosf sinf piQ nmBits rng).geomBuffers.getD 1 gbDefault).posAngle
      = ⟨2, 0, 0, 0⟩ ∧
    ((initScene cosf sinf piQ nmBits rng).geomBuffers.getD 1
        gbDefault).shineSpeedTexIdNM.y = 0 ∧
    ∀ i, 2 ≤ i → i < 10 →
      -(7/2) ≤ ((initScene cosf sinf piQ nmBits rng).geomBuffers.getD i
          gbDefault).posAngle.x ∧
      ((initScene cosf sinf piQ nmBits rng).geomBuffers.getD i
          gbDefault).posAngle.x ≤ 7/2 ∧
      -(7/2) ≤ ((initScene cosf sinf piQ nmBits rng).geomBuffers.getD i
          gbDefault).posAngle.y ∧
      ((initScene cosf sinf piQ nmBits rng).geomBuffers.getD i
          gbDefault).posAngle.y ≤ 7/2 ∧
      -(7/2) ≤ ((initScene cosf sinf piQ nmBits rng).geomBuffers.getD i
          gbDefault).posAngle.z ∧
      ((initScene cosf sinf piQ nmBits rng).geomBuffers.getD i
          gbDefault).posAngle.z ≤ 7/2 := by
  refine ⟨rfl, rfl, rfl, rfl, rfl, ?_⟩
  have key : ∀ i, 2 ≤ i → i < 10 →
      (initScene cosf sinf piQ nmBits rng).geomBuffers.getD i gbDefault
        = initGeomAt piQ nmBits rng (5 * (i - 2)) gbDefault := by
    intro i h2 h10
    interval_cases i <;> rfl
  intro i h2 h10
  rw [key i h2 h10]
  simp only [initGeomAt, initGeom, gbDefault]
  obtain ⟨ha0, ha1⟩ := hrng (5 * (i - 2))
  obtain ⟨hb0, hb1⟩ := hrng (5 * (i - 2) + 1)
  obtain ⟨hc0, hc1⟩ := hrng (5 * (i - 2) + 2)
  refine ⟨by linarith, by linarith, by linarith, by linarith, by linarith, by linarith⟩

/-- Witness for C8 with the constant draw `1/2` and `piQ = 3`. -/
theorem initScene_spec_witness :
    (∀ n, 0 ≤ (fun _ : ℕ => (1 : ℚ)/2) n ∧ (fun _ : ℕ => (1 : ℚ)/2) n ≤ 1) ∧
    (initScene id id 3 0 (fun _ => 1/2)).instCount = 10 ∧
    ((initScene id id 3 0 (fun _ => 1/2)).geomBuffers.getD 0 gbDefault).posAngle
      = ⟨1/100000, 0, 0, 0⟩ ∧
    ((initScene id id 3 0 (fun _ => 1/2)).geomBuffers.getD 0
        gbDefault).shineSpeedTexIdNM.y = 3 / 2 ∧
    -(7/2) ≤ ((initScene id id 3 0 (fun _ => 1/2)).geomBuffers.getD 5
        gbDefault).posAngle.x :=
  have h := initScene_spec id id 3 0 (fun _ => 1/2)
    (fun _ => ⟨by norm_num, by norm_num⟩)
  ⟨fun _ => ⟨by norm_num, by norm_num⟩, h.1, h.2.1, h.2.2.1,
   (h.2.2.2.2.2 5 (by norm_num) (by norm_num)).1⟩

/-- An active instance with a nonzero rotation speed below the `0.0001`
threshold of `UpdateCubes`. -/
def gbSlow : GeomBuffer :=
  { gbDefault with
    shineSpeedTexIdNM := ⟨0, 1/20000, 0, 0⟩
    posAngle := ⟨1, 0, 0, 5⟩ }

/-- Counterexample to C4 as stated: `gbSlow` has NONZERO rotation speed
`1/20000`, yet one animation step over one second leaves it (angle included)
completely unchanged, although the claimed increment `dt · speed = 1/20000`
is nonzero — the code only animates instances with
`fabs(speed) > 0.0001`. -/
theorem updateCube_small_speed_counterexample :
    gbSlow.shineSpeedTexIdNM.y ≠ 0 ∧
    updateCube id id 1 gbSlow = gbSlow ∧
    gbSlow.posAngle.w + 1 * gbSlow.shineSpeedTexIdNM.y ≠ gbSlow.posAngle.w := by
  have habs : |gbSlow.shineSpeedTexIdNM.y| = 1/20000 := by
    rw [show gbSlow.shineSpeedTexIdNM.y = 1/20000 from rfl]
    exact abs_of_pos (by norm_num)
  refine ⟨by norm_num [gbSlow], ?_, by norm_num [gbSlow]⟩
  unfold updateCube
  rw [if_neg (by rw [habs]; norm_num)]

/-- C4 (amended): in an animation step with model rotation enabled, every
active instance whose rotation speed EXCEEDS `0.0001` in absolute value gets
its angle incremented by `deltaTime · speed`, its model matrix recomputed as
rotation (about y, by the new angle) composed with translation to its
position, and its normal matrix recomputed as the inverse transpose of the
model matrix, all other fields kept; every active instance whose rotation
speed is at most `0.0001` in absolute value (zero included) keeps ALL its
fields unchanged, as does every record beyond the active count; afterwards
the whole instance buffer is re-uploaded to the GPU. -/
theorem updateCubes_step_spec (cosf sinf : ℚ → ℚ) (dt : ℚ) (instCount : ℕ)
    (bufs : List GeomBuffer) (i : ℕ) (g : GeomBuffer)
    (hg : bufs[i]? = some g) :
    (updateCubes cosf sinf true dt instCount bufs).2 = true ∧
    (i < instCount → 1/10000 < |g.shineSpeedTexIdNM.y| →
      (updateCubes cosf sinf true dt instCount bufs).1[i]? = some
        { m := modelMatrixOf cosf sinf
            ⟨g.posAngle.x, g.posAngle.y, g.posAngle.z,
              g.posAngle.w + dt * g.shineSpeedTexIdNM.y⟩
          normalM := xmMatrixTranspose (xmMatrixInverse (modelMatrixOf cosf sinf
            ⟨g.posAngle.x, g.posAngle.y, g.posAngle.z,
              g.posAngle.w + dt * g.shineSpeedTexIdNM.y⟩))
          shineSpeedTexIdNM := g.shineSpeedTexIdNM
          posAngle := ⟨g.posAngle.x, g.posAngle.y, g.posAngle.z,
            g.posAngle.w + dt * g.shineSpeedTexIdNM.y⟩ }) ∧
    (i < instCount → |g.shineSpeedTexIdNM.y| ≤ 1/10000 →
      (updateCubes cosf sinf true dt instCount bufs).1[i]? = some g) ∧
    (instCount ≤ i →
      (updateCubes cosf sinf true dt instCount bufs).1[i]? = some g) := by
  refine ⟨rfl, fun hlt hfast => ?_, fun hlt hslow => ?_, fun hge => ?_⟩
  · simp only [updateCubes, if_pos, List.getElem?_mapIdx, hg, Option.map_some',
      if_pos hlt]
    unfold updateCube
    rw [if_pos hfast]
  · simp only [updateCubes, if_pos, List.getElem?_mapIdx, hg, Option.map_some',
      if_pos hlt]
    unfold updateCube
    rw [if_neg (by exact not_lt.mpr hslow)]
  · simp only [updateCubes, if_pos, List.getElem?_mapIdx, hg, Option.map_some',
      if_neg (by exact Nat.not_lt.mpr hge)]

/-- An active instance rotating at speed 1. -/
def gbFast : GeomBuffer :=
  { gbDefault with
    shineSpeedTexIdNM := ⟨0, 1, 0, 0⟩
    posAngle := ⟨1, 0, 0, 5⟩ }

/-- Witness for C4 (amended): one instance rotating at speed 1 for one
second. -/
theorem updateCubes_step_spec_witness :
    ([gbSlow, gbFast][1]? = some gbFast) ∧
    ((1 : ℕ) < 2) ∧ ((1 : ℚ)/10000 < |(1 : ℚ)|) ∧
    (updateCubes id id true 1 2 [gbSlow, gbFast]).1[1]? = some
      { m := modelMatrixOf id id ⟨1, 0, 0, 5 + 1 * 1⟩
        normalM := xmMatrixTranspose (xmMatrixInverse
          (modelMatrixOf id id ⟨1, 0, 0, 5 + 1 * 1⟩))
        shineSpeedTexIdNM := ⟨0, 1, 0, 0⟩
        posAngle := ⟨1, 0, 0, 5 + 1 * 1⟩ } := by
  have habs1 : |gbFast.shineSpeedTexIdNM.y| = 1 := by
    rw [show gbFast.shineSpeedTexIdNM.y = 1 from rfl]
    exact abs_one
  refine ⟨rfl, by norm_num, by rw [abs_one]; norm_num, ?_⟩
  have h := (updateCubes_step_spec id id 1 2 [gbSlow, gbFast] 1 gbFast
    rfl).2.1 (by norm_num) (by rw [habs1]; norm_num)
  simpa [gbFast] using h

/-- The float order is reflexive. -/
theorem fleb_refl (a : FVal) : fleb a a = true := by
  cases a <;> simp [fleb]

/-- The float order is total. -/
theorem fleb_total (a b : FVal) : fleb a b = true ∨ fleb b a = true := by
  cases a <;> cases b <;> first
  | exact Or.inl rfl
  | exact Or.inr rfl
  | exact by simp only [fleb, decide_eq_true_eq]; exact le_total _ _

/-- The float order is transitive. -/
theorem fleb_trans {a b c : FVal} (h1 : fleb a b = true) (h2 : fleb b c = true) :
    fleb a c = true := by
  cases a <;> cases b <;> cases c <;> simp_all [fleb]
  exact le_trans h1 h2

/-- Extending a box by a point always leaves the extended axis ordered:
`min(vmin, p) ≤ p ≤ max(vmax, p)` regardless of the previous corners. -/
theorem fminv_le_fmaxv (a b : FVal) (q : ℚ) :
    fleb (fminv a (.fin q)) (fmaxv b (.fin q)) = true := by
  have hmin : fleb (fminv a (.fin q)) (.fin q) = true := by
    unfold fminv
    split
    · assumption
    · exact fleb_refl _
  have hmax : fleb (.fin q) (fmaxv b (.fin q)) = true := by
    unfold fmaxv
    split
    · exact fleb_refl _
    · rcases fleb_total b (.fin q) with h | h
      · simp_all
      · exact h
  exact fleb_trans hmin hmax

/-- After any `addPointF` the box is ordered on every axis. -/
theorem addPointF_ordered (bb : AABBF) (p : Point3) :
    fleb (addPointF bb p).vmin.x (addPointF bb p).vmax.x = true ∧
    fleb (addPointF bb p).vmin.y (addPointF bb p).vmax.y = true ∧
    fleb (addPointF bb p).vmin.z (addPointF bb p).vmax.z = true :=
  ⟨fminv_le_fmaxv _ _ _, fminv_le_fmaxv _ _ _, fminv_le_fmaxv _ _ _⟩

/-- Folding at least one point through `addPointF` yields an ordered box. -/
theorem foldl_addPointF_ordered (ps : List Point3) (bb : AABBF) (p : Point3) :
    fleb ((p :: ps).foldl addPointF bb).vmin.x
        ((p :: ps).foldl addPointF bb).vmax.x = true ∧
    fleb ((p :: ps).foldl addPointF bb).vmin.y
        ((p :: ps).foldl addPointF bb).vmax.y = true ∧
    fleb ((p :: ps).foldl addPointF bb).vmin.z
        ((p :: ps).foldl addPointF bb).vmax.z = true := by
  induction ps generalizing bb p with
  | nil => exact addPointF_ordered bb p
  | cons q qs ih => exact ih (addPointF bb p) q

/-- Counterexample to C5 as stated: the default-constructed `AABB` does NOT
hold infinities — its `vmin` components are
`std::numeric_limits<float>::max()`, the largest FINITE float, and its
`vmax` components are the finite `lowest()`. -/
theorem aabbDefault_not_infinity :
    aabbDefault.vmin.x ≠ FVal.pinf ∧ aabbDefault.vmax.x ≠ FVal.ninf ∧
    aabbDefault.vmin.x = FVal.fin (2 ^ 128 - 2 ^ 104) := by
  refine ⟨?_, ?_, rfl⟩ <;> simp [aabbDefault, numericLimitsFloatMax,
    numericLimitsFloatLowest, fltMaxQ]

/-- C5 (amended): a default-constructed box initializes every `vmin`
component to `std::numeric_limits<float>::max()` (the largest finite float,
not `+∞`) and every `vmax` component to `numeric_limits<float>::lowest()`,
so `min ≤ max` fails on every axis until the box is populated; a box
populated from at least one point satisfies `min ≤ max` componentwise. -/
theorem aabb_sentinel_unordered_populated_ordered (p : Point3) (ps : List Point3) :
    aabbDefault.vmin.x = numericLimitsFloatMax ∧
    aabbDefault.vmin.y = numericLimitsFloatMax ∧
    aabbDefault.vmin.z = numericLimitsFloatMax ∧
    aabbDefault.vmax.x = numericLimitsFloatLowest ∧
    aabbDefault.vmax.y = numericLimitsFloatLowest ∧
    aabbDefault.vmax.z = numericLimitsFloatLowest ∧
    fleb aabbDefault.vmin.x aabbDefault.vmax.x = false ∧
    fleb aabbDefault.vmin.y aabbDefault.vmax.y = false ∧
    fleb aabbDefault.vmin.z aabbDefault.vmax.z = false ∧
    fleb (aabbOfPoints p ps).vmin.x (aabbOfPoints p ps).vmax.x = true ∧
    fleb (aabbOfPoints p ps).vmin.y (aabbOfPoints p ps).vmax.y = true ∧
    fleb (aabbOfPoints p ps).vmin.z (aabbOfPoints p ps).vmax.z = true := by
  have hdef : fleb aabbDefault.vmin.x aabbDefault.vmax.x = false := by
    simp only [aabbDefault, numericLimitsFloatMax, numericLimitsFloatLowest, fleb]
    norm_num [fltMaxQ]
  obtain ⟨h1, h2, h3⟩ := foldl_addPointF_ordered ps aabbDefault p
  exact ⟨rfl, rfl, rfl, rfl, rfl, rfl, hdef, hdef, hdef, h1, h2, h3⟩

/-- The plane value of a transformed midpoint is the mean of the plane
values of the transformed endpoints (both maps are affine). -/
theorem planeValue_transform_midpoint (pl : Point4) (m : Mat4) (a b : Point3) :
    planeValue pl (transformPoint m (p3smul (p3add a b) (1/2)))
      = (planeValue pl (transformPoint m a)
          + planeValue pl (transformPoint m b)) / 2 := by
  simp only [planeValue, transformPoint, p3add, p3smul]
  ring

/-- C2: the conservative test culls a box exactly when, for some single
plane, all 8 transformed `GetVert` corners lie strictly on its negative
side; consequently a box whose (world-space) center is strictly inside all
planes is never culled. -/
theorem boxCulled_iff_all_corners_outside (planes : List Point4) (m : Mat4)
    (bb : AABB) :
    (boxCulled planes m bb = true ↔
      ∃ pl ∈ planes, ∀ i < 8,
        planeValue pl (transformPoint m (getVert bb i)) < 0) ∧
    ((∀ pl ∈ planes, 0 < planeValue pl (transformPoint m (boxCenter bb))) →
      boxCulled planes m bb = false) := by
  have hiff : boxCulled planes m bb = true ↔
      ∃ pl ∈ planes, ∀ i < 8,
        planeValue pl (transformPoint m (getVert bb i)) < 0 := by
    simp [boxCulled, List.any_eq_true, List.all_eq_true, List.mem_range,
      decide_eq_true_eq]
  refine ⟨hiff, fun hin => ?_⟩
  by_contra hne
  have hcul : boxCulled planes m bb = true := by
    cases h : boxCulled planes m bb
    · exact absurd h hne
    · rfl
  obtain ⟨pl, hpl, hall⟩ := hiff.mp hcul
  have h0 := hall 0 (by norm_num)
  have h7 := hall 7 (by norm_num)
  have hv0 : getVert bb 0 = bb.vmin := rfl
  have hv7 : getVert bb 7 = bb.vmax := rfl
  rw [hv0] at h0
  rw [hv7] at h7
  have hc := hin pl hpl
  have hmid := planeValue_transform_midpoint pl m bb.vmin bb.vmax
  have hcenter : boxCenter bb = p3smul (p3add bb.vmin bb.vmax) (1/2) := rfl
  rw [hcenter, hmid] at hc
  linarith

/-- A concrete frustum of one plane (`x + 1 > 0` inside). -/
def planesEx : List Point4 := [⟨1, 0, 0, 1⟩]

/-- The unit cube centered at the origin. -/
def bbUnit : AABB := { vmin := ⟨-(1/2), -(1/2), -(1/2)⟩, vmax := ⟨1/2, 1/2, 1/2⟩ }

/-- The identity model matrix. -/
def mId : Mat4 :=
  Matrix.of fun i j => if i = j then 1 else 0

/-- The identity model matrix leaves points in place. -/
theorem transformPoint_mId (p : Point3) : transformPoint mId p = p := by
  simp +decide [transformPoint, mId, Matrix.of_apply]

/-- Witness for C2: the origin-centered unit cube under the identity
transform has its center strictly inside the plane `x + 1 > 0` and is not
culled. -/
theorem boxCulled_iff_all_corners_outside_witness :
    (∀ pl ∈ planesEx, 0 < planeValue pl (transformPoint mId (boxCenter bbUnit))) ∧
    boxCulled planesEx mId bbUnit = false := by
  have hin : ∀ pl ∈ planesEx, 0 < planeValue pl (transformPoint mId (boxCenter bbUnit)) := by
    intro pl hpl
    rw [List.mem_singleton.mp hpl, transformPoint_mId]
    norm_num [planeValue, boxCenter, bbUnit, p3add, p3smul]
  exact ⟨hin, (boxCulled_iff_all_corners_outside planesEx mId bbUnit).2 hin⟩

/-- C1: the CPU culler and the (spec-modelled) GPU compute culler apply the
same conservative test instance by instance, so for ANY execution order of
the compute invocations — any permutation of the active instances — the
compacted visible sets have equal size. -/
theorem cpu_gpu_cull_same_count (planes : List Point4) (instCount : ℕ)
    (insts order : List (GeomBuffer × AABB))
    (hperm : order.Perm (insts.take instCount)) :
    (cullBoxesGPU planes order).length
      = (cullBoxesCPU planes instCount insts).length := by
  unfold cullBoxesGPU cullBoxesCPU
  exact (hperm.filter _).length_eq

/-- Two distinct instance records over the unit box. -/
def instA : GeomBuffer × AABB := (gbDefault, bbUnit)

/-- A second instance, distinguished by its position. -/
def instB : GeomBuffer × AABB :=
  ({ gbDefault with posAngle := ⟨2, 0, 0, 0⟩ }, bbUnit)

/-- Witness for C1: the swapped execution order `[B, A]` of the two active
instances `[A, B]` yields the same visible count. -/
theorem cpu_gpu_cull_same_count_witness :
    ([instB, instA].Perm ([instA, instB].take 2)) ∧
    (cullBoxesGPU planesEx [instB, instA]).length
      = (cullBoxesCPU planesEx 2 [instA, instB]).length :=
  ⟨List.Perm.swap instA instB [],
   cpu_gpu_cull_same_count planesEx 2 [instA, instB] [instB, instA]
     (List.Perm.swap instA instB [])⟩

/-- The poll loop never touches the frame counter or the GPU-resident
indirect-args instance count. -/
theorem pollFrames_draw_independent (done : ℕ → Bool) (counts : ℕ → ℕ)
    (fs : List ℕ) (s : QState) :
    (pollFrames done counts fs s).curFrame = s.curFrame ∧
    (pollFrames done counts fs s).indirectArgsInstanceCount
      = s.indirectArgsInstanceCount := by
  induction fs generalizing s with
  | nil => exact ⟨rfl, rfl⟩
  | cons f fs ih =>
    unfold pollFrames
    split
    · exact ih _
    · exact ⟨rfl, rfl⟩

/-- The poll loop either leaves the state alone or publishes the count of
some completed polled frame. -/
theorem pollFrames_result (done : ℕ → Bool) (counts : ℕ → ℕ)
    (fs : List ℕ) (s : QState) :
    pollFrames done counts fs s = s ∨
    ∃ f ∈ fs, done f = true ∧
      (pollFrames done counts fs s).lastCompletedFrame = f ∧
      (pollFrames done counts fs s).gpuVisibleInstances = counts f := by
  induction fs generalizing s with
  | nil => exact Or.inl rfl
  | cons f fs ih =>
    unfold pollFrames
    split
    case isTrue h =>
      rcases ih { s with lastCompletedFrame := f, gpuVisibleInstances := counts f }
        with heq | ⟨g, hg, hd, hl, hv⟩
      · refine Or.inr ⟨f, List.mem_cons_self f fs, h, ?_, ?_⟩
        · rw [heq]
        · rw [heq]
      · exact Or.inr ⟨g, List.mem_cons_of_mem f hg, hd, hl, hv⟩
    case isFalse h => exact Or.inl rfl

/-- C7: the frame query ring has exactly 10 slots, frame `f` occupying slot
`f mod 10` (so slots are reused round-robin every 10 frames); a poll whose
oldest pending query is not complete changes nothing this frame (no
blocking); the completed-frame pointer only moves forward and never past
the current frame; whenever it moves, the reported GPU visible count is the
one recorded by that COMPLETED earlier frame; an incomplete query is picked
up by a later poll once complete; and polling never touches the current
frame or the GPU-resident indirect-args instance count that the draw
consumes. -/
theorem queryRing_spec (done : ℕ → Bool) (counts : ℕ → ℕ) (s : QState) (f : ℕ)
    (hwin : s.lastCompletedFrame ≤ s.curFrame) :
    queriesInit.length = 10 ∧
    slotOfFrame f = f % 10 ∧
    slotOfFrame (f + 10) = slotOfFrame f ∧
    (done (s.lastCompletedFrame + 1) = false → readQueries done counts s = s) ∧
    s.lastCompletedFrame ≤ (readQueries done counts s).lastCompletedFrame ∧
    (readQueries done counts s).lastCompletedFrame ≤ s.curFrame ∧
    (s.lastCompletedFrame < (readQueries done counts s).lastCompletedFrame →
      done (readQueries done counts s).lastCompletedFrame = true ∧
      (readQueries done counts s).gpuVisibleInstances
        = counts (readQueries done counts s).lastCompletedFrame) ∧
    (s.lastCompletedFrame < s.curFrame → done (s.lastCompletedFrame + 1) = true →
      s.lastCompletedFrame + 1 ≤ (readQueries done counts s).lastCompletedFrame) ∧
    (readQueries done counts s).curFrame = s.curFrame ∧
    (readQueries done counts s).indirectArgsInstanceCount
      = s.indirectArgsInstanceCount := by
  have hsize : queriesInit.length = 10 := by
    simp [queriesInit, numQueries]
  have hslot : slotOfFrame f = f % 10 := rfl
  have hround : slotOfFrame (f + 10) = slotOfFrame f := by
    simp [slotOfFrame, numQueries, Nat.add_mod_right]
  have hrq : readQueries done counts s = pollFrames done counts (pendingFrames s) s :=
    rfl
  have hskip : done (s.lastCompletedFrame + 1) = false →
      readQueries done counts s = s := by
    intro hdone
    cases hn : s.curFrame - s.lastCompletedFrame with
    | zero =>
      unfold readQueries pendingFrames
      rw [hn]
      rfl
    | succ n =>
      have hpend : pendingFrames s
          = (s.lastCompletedFrame + 1)
            :: List.range' (s.lastCompletedFrame + 1 + 1) n := by
        unfold pendingFrames
        rw [hn]
        rfl
      rw [hrq, hpend]
      simp only [pollFrames]
      rw [if_neg (by simp [hdone])]
  have hres := pollFrames_result done counts (pendingFrames s) s
  have hbound : ∀ g ∈ pendingFrames s,
      s.lastCompletedFrame + 1 ≤ g ∧ g ≤ s.curFrame := by
    intro g hgmem
    unfold pendingFrames at hgmem
    rw [List.mem_range'] at hgmem
    omega
  have hmono : s.lastCompletedFrame ≤ (readQueries done counts s).lastCompletedFrame := by
    rcases hres with heq | ⟨g, hg, _, hl, _⟩
    · rw [show readQueries done counts s = s from heq]
    · rw [show (readQueries done counts s).lastCompletedFrame = g from hl]
      exact le_of_lt (lt_of_lt_of_le (Nat.lt_succ_self _) (hbound g hg).1)
  have hle : (readQueries done counts s).lastCompletedFrame ≤ s.curFrame := by
    rcases hres with heq | ⟨g, hg, _, hl, _⟩
    · rw [show readQueries done counts s = s from heq]
      exact hwin
    · rw [show (readQueries done counts s).lastCompletedFrame = g from hl]
      exact (hbound g hg).2
  have hsound : s.lastCompletedFrame < (readQueries done counts s).lastCompletedFrame →
      done (readQueries done counts s).lastCompletedFrame = true ∧
      (readQueries done counts s).gpuVisibleInstances
        = counts (readQueries done counts s).lastCompletedFrame := by
    intro hmoved
    rcases hres with heq | ⟨g, _, hd, hl, hv⟩
    · rw [show readQueries done counts s = s from heq] at hmoved
      omega
    · rw [hrq, hl, hv]
      exact ⟨hd, rfl⟩
  have hretry : s.lastCompletedFrame < s.curFrame →
      done (s.lastCompletedFrame + 1) = true →
      s.lastCompletedFrame + 1 ≤ (readQueries done counts s).lastCompletedFrame := by
    intro hlt hdone
    obtain ⟨n, hn⟩ : ∃ n, s.curFrame - s.lastCompletedFrame = n + 1 :=
      ⟨s.curFrame - s.lastCompletedFrame - 1, by omega⟩
    have hpend : pendingFrames s
        = (s.lastCompletedFrame + 1)
          :: List.range' (s.lastCompletedFrame + 1 + 1) n := by
      unfold pendingFrames
      rw [hn]
      rfl
    rw [hrq, hpend]
    simp only [pollFrames]
    rw [if_pos (by simp [hdone])]
    rcases pollFrames_result done counts
      (List.range' (s.lastCompletedFrame + 1 + 1) n)
      { s with
        lastCompletedFrame := s.lastCompletedFrame + 1
        gpuVisibleInstances := counts (s.lastCompletedFrame + 1) }
      with heq | ⟨g, hg, _, hl, _⟩
    · rw [heq]
    · rw [hl]
      rw [List.mem_range'] at hg
      omega
  have hdraw := pollFrames_draw_independent done counts (pendingFrames s) s
  exact ⟨hsize, hslot, hround, hskip, hmono, hle, hsound, hretry, hdraw.1, hdraw.2⟩

/-- A query-ring state three frames in, nothing yet completed, with the
GPU-side indirect instance count at 7. -/
def qsEx : QState :=
  { curFrame := 3
    lastCompletedFrame := 0
    gpuVisibleInstances := 0
    indirectArgsInstanceCount := 7 }

/-- The completion oracle of the witness: frames 1 and 2 have completed. -/
def doneEx : ℕ → Bool := fun g => decide (1 ≤ g ∧ g ≤ 2)

/-- The per-frame GPU visible counts of the witness. -/
def countsEx : ℕ → ℕ := fun g => g + 10

/-- Witness for C7 at `qsEx` with frames 1 and 2 complete. -/
theorem queryRing_spec_witness :
    qsEx.lastCompletedFrame ≤ qsEx.curFrame ∧
    (queriesInit.length = 10 ∧
     slotOfFrame 123 = 123 % 10 ∧
     slotOfFrame (123 + 10) = slotOfFrame 123 ∧
     (doneEx (qsEx.lastCompletedFrame + 1) = false →
       readQueries doneEx countsEx qsEx = qsEx) ∧
     qsEx.lastCompletedFrame ≤ (readQueries doneEx countsEx qsEx).lastCompletedFrame ∧
     (readQueries doneEx countsEx qsEx).lastCompletedFrame ≤ qsEx.curFrame ∧
     (qsEx.lastCompletedFrame < (readQueries doneEx countsEx qsEx).lastCompletedFrame →
       doneEx (readQueries doneEx countsEx qsEx).lastCompletedFrame = true ∧
       (readQueries doneEx countsEx qsEx).gpuVisibleInstances
         = countsEx (readQueries doneEx countsEx qsEx).lastCompletedFrame) ∧
     (qsEx.lastCompletedFrame < qsEx.curFrame →
       doneEx (qsEx.lastCompletedFrame + 1) = true →
       qsEx.lastCompletedFrame + 1
         ≤ (readQueries doneEx countsEx qsEx).lastCompletedFrame) ∧
     (readQueries doneEx countsEx qsEx).curFrame = qsEx.curFrame ∧
     (readQueries doneEx countsEx qsEx).indirectArgsInstanceCount
       = qsEx.indirectArgsInstanceCount) :=
  ⟨by decide, queryRing_spec doneEx countsEx qsEx 123 (by decide)⟩

end DX11
